import Mathlib

/-!
Verification of the agent-run registry and restart coordination of the
moltbot repository.

The registry lives in `src/infra/agent-events.ts`: module-level JS `Map`s
`runContextById`, `runStartTimes`, `seqByRun`, a `Set` of completion
callbacks, a `Set` of event listeners, and a per-registration `setTimeout`
that force-clears stale runs.  We embed that module shallowly:

* a JS `Map` is an association list whose keys stay distinct and in
  insertion order (`Map.set` on a fresh key appends, on an existing key
  updates in place; `Map.delete` removes the entry);
* `Date.now()` and timer deadlines are explicit `Nat` millisecond
  parameters; each `setTimeout` scheduled by `registerAgentRunContext`
  becomes a `(runId, fireTime)` entry in a `pendingTimers` queue (the
  source never stores the handle nor calls `clearTimeout`);
* a completion callback may run arbitrary code against the module state
  and may throw, so it is a function `AgentEventsState →
  AgentEventsState × Option String` (the state it leaves behind, and the
  exception it threw, if any); the source's `try { cb() } catch {}`
  discards that exception and keeps iterating;
* an event listener receives the enriched payload and may throw, so it is
  `AgentEventPayload → Option String`;
* log calls become ghost `LogEvent` entries so that the distinct
  classifications (debug register/clear vs. the stale-eviction warning)
  are visible to theorems.

The restart coordinator (`src/gateway/config-reload.ts`) is not part of
the sources; only its end-to-end test is.  It is therefore modelled from
the specification text (section 4.4), clearly marked below.
-/

/-- `VerboseLevel` is a string type imported from `auto-reply/thinking.ts`
(outside the embedded sources); it is modelled as `String`. -/
abbrev VerboseLevel := String

/-- Opaque passthrough modelling the `Record<string, unknown>` event data;
its structure is never inspected by the embedded code. -/
abbrev EventData := List (String × String)

/-- `AgentRunContext` from `agent-events.ts`: all three metadata fields are
optional in the TypeScript type. -/
structure AgentRunContext where
  sessionKey : Option String
  verboseLevel : Option VerboseLevel
  isHeartbeat : Option Bool
deriving DecidableEq, Repr

/-- The enriched event payload produced by `emitAgentEvent`. -/
structure AgentEventPayload where
  runId : String
  seq : Nat
  stream : String
  ts : Nat
  data : EventData
  sessionKey : Option String
deriving DecidableEq, Repr

/-- The caller-supplied part of an event (`Omit<AgentEventPayload, "seq" | "ts">`). -/
structure AgentEventIn where
  runId : String
  stream : String
  data : EventData
  sessionKey : Option String
deriving DecidableEq, Repr

/-- Ghost log classifications: `agentLog.debug` on register and clear, and
the distinct `agentLog.warn` emitted by the stale-run timeout body. -/
inductive LogEvent where
  | runRegistered (id : String)
  | runCleared (id : String)
  | staleRunEvicted (id : String)
deriving DecidableEq, Repr

/-- Lookup in a JS `Map` modelled as an association list (`Map.get`). -/
def mapLookup {α : Type} : List (String × α) → String → Option α
  | [], _ => none
  | (k, v) :: rest, key => if k = key then some v else mapLookup rest key

/-- `Map.has`. -/
def mapHas {α : Type} (m : List (String × α)) (key : String) : Bool :=
  (mapLookup m key).isSome

/-- `Map.set`: updates in place when the key exists, appends otherwise. -/
def mapSet {α : Type} : List (String × α) → String → α → List (String × α)
  | [], key, val => [(key, val)]
  | (k, v) :: rest, key, val =>
      if k = key then (k, val) :: rest else (k, v) :: mapSet rest key val

/-- `Map.delete`: removes the entry for the key. -/
def mapDelete {α : Type} : List (String × α) → String → List (String × α)
  | [], _ => []
  | (k, v) :: rest, key =>
      if k = key then mapDelete rest key else (k, v) :: mapDelete rest key

/-- Keys of the map in insertion order (`Array.from(map.keys())`). -/
def mapKeys {α : Type} (m : List (String × α)) : List String :=
  m.map Prod.fst

/-- The module-level state of `agent-events.ts`, plus the queue of pending
`setTimeout` tasks and a ghost log. -/
structure AgentEventsState where
  runContextById : List (String × AgentRunContext)
  runStartTimes : List (String × Nat)
  seqByRun : List (String × Nat)
  pendingTimers : List (String × Nat)
  log : List LogEvent
deriving DecidableEq, Repr

/-- The empty module state. -/
def emptyAgentEventsState : AgentEventsState :=
  { runContextById := [], runStartTimes := [], seqByRun := [], pendingTimers := [], log := [] }

/-- `MAX_RUN_DURATION_MS = 10 * 60 * 1000` from `agent-events.ts`. -/
def MAX_RUN_DURATION_MS : Nat := 10 * 60 * 1000

/-- JS truthiness of an optional string: present and non-empty. -/
def truthyStr : Option String → Bool
  | some s => s ≠ ""
  | none => false

/-- The merge performed by `registerAgentRunContext` on an existing record:
`sessionKey` and `verboseLevel` are overwritten only when the incoming value
is truthy (present and non-empty); `isHeartbeat` is overwritten whenever it
is not `undefined` (so an explicit `false` is applied). -/
def mergeContext (existing incoming : AgentRunContext) : AgentRunContext :=
  { sessionKey := if truthyStr incoming.sessionKey then incoming.sessionKey else existing.sessionKey
    verboseLevel :=
      if truthyStr incoming.verboseLevel then incoming.verboseLevel else existing.verboseLevel
    isHeartbeat :=
      match incoming.isHeartbeat with
      | some b => some b
      | none => existing.isHeartbeat }

/-- `registerAgentRunContext(runId, context)` at time `now`.  An empty
`runId` is falsy, so the function returns at once; a fresh id inserts a
copy of the context, records the start time, and schedules a stale-run
`setTimeout` for `now + MAX_RUN_DURATION_MS`; an existing id is merged via
`mergeContext` (no second timer, no size change). -/
def registerAgentRunContext (runId : String) (context : AgentRunContext)
    (now : Nat) (st : AgentEventsState) : AgentEventsState :=
  if runId = "" then st
  else
    match mapLookup st.runContextById runId with
    | none =>
        { st with
          runContextById := mapSet st.runContextById runId context
          runStartTimes := mapSet st.runStartTimes runId now
          pendingTimers := st.pendingTimers ++ [(runId, now + MAX_RUN_DURATION_MS)]
          log := st.log ++ [LogEvent.runRegistered runId] }
    | some existing =>
        { st with
          runContextById := mapSet st.runContextById runId (mergeContext existing context) }

/-- A completion callback: runs arbitrary code against the module state and
may throw.  The result is the state it leaves behind and the exception it
raised, if any. -/
def CompletionCallback := AgentEventsState → AgentEventsState × Option String

/-- The `for (const callback of runCompletionCallbacks) { try { callback() }
catch { /* ignore */ } }` loop from `clearAgentRunContext`: every callback
runs in order, each thrown exception is recorded and discarded, and the
next callback starts from the state the previous one left behind. -/
def notifyCompletions : List CompletionCallback → AgentEventsState →
    AgentEventsState × List (Option String)
  | [], st => (st, [])
  | cb :: rest, st =>
      let r := cb st
      let rec' := notifyCompletions rest r.1
      (rec'.1, r.2 :: rec'.2)

/-- `clearAgentRunContext(runId)`: records whether the id existed, deletes
it from `runContextById` and `runStartTimes` (the pending timer is left
untouched: the source stores no handle and never calls `clearTimeout`),
then, only if it existed, logs and synchronously notifies every completion
callback.  Returns the final state and the exception outcome of each
callback invocation. -/
def clearAgentRunContext (cbs : List CompletionCallback) (runId : String)
    (st : AgentEventsState) : AgentEventsState × List (Option String) :=
  let existed := mapHas st.runContextById runId
  let st1 := { st with
    runContextById := mapDelete st.runContextById runId
    runStartTimes := mapDelete st.runStartTimes runId }
  if existed then
    notifyCompletions cbs { st1 with log := st1.log ++ [LogEvent.runCleared runId] }
  else (st1, [])

/-- Body of the stale-run `setTimeout` scheduled by `registerAgentRunContext`:
if the id is still present, emit the distinct warning classification and
force-clear exactly via `clearAgentRunContext`; otherwise do nothing. -/
def staleTimeoutBody (cbs : List CompletionCallback) (runId : String)
    (st : AgentEventsState) : AgentEventsState × List (Option String) :=
  if mapHas st.runContextById runId then
    clearAgentRunContext cbs runId
      { st with log := st.log ++ [LogEvent.staleRunEvicted runId] }
  else (st, [])

/-- An event listener: receives the enriched payload and may throw. -/
def EventListener := AgentEventPayload → Option String

/-- The `for (const listener of listeners) { try { listener(enriched) }
catch { /* ignore */ } }` loop from `emitAgentEvent`. -/
def notifyListeners : List EventListener → AgentEventPayload → List (Option String)
  | [], _ => []
  | l :: rest, p => l p :: notifyListeners rest p

/-- JS `s.trim()` is truthy exactly when the trimmed string is non-empty,
i.e. when some character of `s` is not whitespace.  (Computable stand-in
for `String.trim`, whose well-founded recursion does not reduce in the
kernel; the whitespace set is Lean's `Char.isWhitespace`.) -/
def trimNonempty (s : String) : Bool :=
  s.toList.any (fun c => !c.isWhitespace)

/-- The session key chosen by `emitAgentEvent`: the event's own key when it
is a string that is non-blank after trimming, otherwise the registered run
context's key (or `none` when no context is registered). -/
def enrichSessionKey (evKey : Option String) (ctx : Option AgentRunContext) :
    Option String :=
  match evKey with
  | some s => if trimNonempty s then some s else ctx.bind (fun c => c.sessionKey)
  | none => ctx.bind (fun c => c.sessionKey)

/-- `emitAgentEvent(event)` at time `now`: bumps the per-run sequence
counter, enriches the session key from the registered context, stamps the
payload, and notifies every listener. -/
def emitAgentEvent (ls : List EventListener) (ev : AgentEventIn) (now : Nat)
    (st : AgentEventsState) :
    AgentEventsState × AgentEventPayload × List (Option String) :=
  let nextSeq := (mapLookup st.seqByRun ev.runId).getD 0 + 1
  let context := mapLookup st.runContextById ev.runId
  let enriched : AgentEventPayload :=
    { runId := ev.runId
      seq := nextSeq
      stream := ev.stream
      ts := now
      data := ev.data
      sessionKey := enrichSessionKey ev.sessionKey context }
  ({ st with seqByRun := mapSet st.seqByRun ev.runId nextSeq },
   enriched,
   notifyListeners ls enriched)

/-- Classification of a `ReloadPlan` (spec section 3). -/
inductive PlanClassification where
  | noop
  | hotApply
  | restartRequired
  | rejected
deriving DecidableEq, Repr

/-- Modelled from the spec: `ReloadPlan` (spec section 3) — classification,
changed fields, human-readable reason.  The Reload Planner and Restart
Coordinator source (`src/gateway/config-reload.ts`) is not among the
embedded sources; only its end-to-end test is. -/
structure ReloadPlan where
  classification : PlanClassification
  changedFields : List String
  reason : String
deriving DecidableEq, Repr

/-- Modelled from the spec: the Restart Coordinator's states (spec
section 4.4): `Idle`, `PlanQueued` (holding the queued plan), `Applying`. -/
inductive CoordinatorState where
  | idle
  | planQueued (plan : ReloadPlan)
  | applying
deriving DecidableEq, Repr

/-- Modelled from the spec: the Restart Coordinator (spec section 4.4).
`bridgeRestartRequests` records every restart request sent to the
Lifecycle Bridge (the reason string passed along); `hotApplied` records
plans handed to the injected hot-apply callback. -/
structure Coordinator where
  state : CoordinatorState
  bridgeRestartRequests : List String
  hotApplied : List ReloadPlan
deriving DecidableEq, Repr

/-- The Coordinator in its initial `Idle` state with no Bridge traffic. -/
def initialCoordinator : Coordinator :=
  { state := CoordinatorState.idle, bridgeRestartRequests := [], hotApplied := [] }

/-- Modelled from the spec: `evaluate(plan)` (spec section 4.4), taking the
Registry's current `count()` as an explicit argument.  `no-op`/`rejected`
plans are discarded; `hot-apply` invokes the hot-apply callback and leaves
the state alone; `restart-required` either requests a restart at once
(count zero) or stores the plan as the queued restart, overwriting any
previous one. -/
def Coordinator.evaluate (c : Coordinator) (p : ReloadPlan) (registryCount : Nat) :
    Coordinator :=
  match p.classification with
  | PlanClassification.noop => c
  | PlanClassification.rejected => c
  | PlanClassification.hotApply => { c with hotApplied := c.hotApplied ++ [p] }
  | PlanClassification.restartRequired =>
      if registryCount = 0 then
        { c with
          state := CoordinatorState.applying
          bridgeRestartRequests := c.bridgeRestartRequests ++ [p.reason] }
      else { c with state := CoordinatorState.planQueued p }

/-- Modelled from the spec: the Registry completion callback
`onRunCompleted` (spec section 4.4): if the state is `PlanQueued` and the
Registry count is zero, transition to `Applying` and invoke the Lifecycle
Bridge exactly once with the queued plan's reason; otherwise do nothing. -/
def Coordinator.onRunCompleted (c : Coordinator) (registryCount : Nat) : Coordinator :=
  match c.state with
  | CoordinatorState.planQueued p =>
      if registryCount = 0 then
        { c with
          state := CoordinatorState.applying
          bridgeRestartRequests := c.bridgeRestartRequests ++ [p.reason] }
      else c
  | _ => c

/-- One call against the registry module: `registerAgentRunContext`,
`clearAgentRunContext`, or `emitAgentEvent`, with explicit clock values. -/
inductive RegistryOp where
  | register (id : String) (ctx : AgentRunContext) (now : Nat)
  | clear (id : String)
  | emit (ev : AgentEventIn) (now : Nat)
deriving DecidableEq, Repr

/-- Execute one registry call (with no subscribers attached, so that the
trace consists of exactly the stated calls), returning the next state and
the payloads emitted by the call. -/
def stepOp (st : AgentEventsState) : RegistryOp → AgentEventsState × List AgentEventPayload
  | RegistryOp.register id ctx now => (registerAgentRunContext id ctx now st, [])
  | RegistryOp.clear id => ((clearAgentRunContext [] id st).1, [])
  | RegistryOp.emit ev now =>
      let r := emitAgentEvent [] ev now st
      (r.1, [r.2.1])

/-- Run a sequence of registry calls from a given state, collecting emitted
payloads in order. -/
def runTraceFrom (st : AgentEventsState) :
    List RegistryOp → AgentEventsState × List AgentEventPayload
  | [] => (st, [])
  | op :: rest =>
      let r := stepOp st op
      let r2 := runTraceFrom r.1 rest
      (r2.1, r.2 ++ r2.2)

/-- Run a sequence of registry calls from the empty module state. -/
def runTrace (tr : List RegistryOp) : AgentEventsState × List AgentEventPayload :=
  runTraceFrom emptyAgentEventsState tr

/-- The set of ids a call sequence leaves registered: a `register` with a
non-empty id adds the id, `clear` removes it, `emit` touches nothing. -/
def liveIdsAfter (s : Finset String) : List RegistryOp → Finset String
  | [] => s
  | RegistryOp.register id _ _ :: rest =>
      liveIdsAfter (if id = "" then s else insert id s) rest
  | RegistryOp.clear id :: rest => liveIdsAfter (s.erase id) rest
  | RegistryOp.emit _ _ :: rest => liveIdsAfter s rest

/-- The set of ids left registered by a call sequence started empty. -/
def liveIds (tr : List RegistryOp) : Finset String := liveIdsAfter ∅ tr

/-- The list of live ids in the order maintained by the code: a fresh
non-empty id is appended at the end (a clear followed by a re-register
therefore moves the id to the end), a merge leaves the order alone. -/
def liveIdsListAfter (l : List String) : List RegistryOp → List String
  | [] => l
  | RegistryOp.register id _ _ :: rest =>
      liveIdsListAfter (if id = "" ∨ id ∈ l then l else l ++ [id]) rest
  | RegistryOp.clear id :: rest =>
      liveIdsListAfter (l.filter (fun x => x ≠ id)) rest
  | RegistryOp.emit _ _ :: rest => liveIdsListAfter l rest

/-- The live-id list of a call sequence started empty. -/
def liveIdsList (tr : List RegistryOp) : List String := liveIdsListAfter [] tr

/-- Scan for the order claimed for `listIds` (claim C7): `f` accumulates
every id in order of its FIRST inserting (non-merged) registration and is
never pruned; `l` tracks the currently live ids. -/
def firstRegScan (f l : List String) : List RegistryOp → List String × List String
  | [] => (f, l)
  | RegistryOp.register id _ _ :: rest =>
      if id = "" ∨ id ∈ l then firstRegScan f l rest
      else firstRegScan (if id ∈ f then f else f ++ [id]) (l ++ [id]) rest
  | RegistryOp.clear id :: rest => firstRegScan f (l.filter (fun x => x ≠ id)) rest
  | RegistryOp.emit _ _ :: rest => firstRegScan f l rest

/-- The ids `listIds` would return under the claimed ordering: the live ids
ordered by their first non-merged registration. -/
def claimOrderedIds (tr : List RegistryOp) : List String :=
  let r := firstRegScan [] [] tr
  r.1.filter (fun id => id ∈ r.2)

/-- Number of `emit` calls for a given run id in a call sequence. -/
def countEmitsFor (r : String) : List RegistryOp → Nat
  | [] => 0
  | RegistryOp.emit ev _ :: rest =>
      (if ev.runId = r then 1 else 0) + countEmitsFor r rest
  | _ :: rest => countEmitsFor r rest

/-- The run `n` of consecutive sequence numbers `b+1, b+2, ..., b+n`. -/
def seqsFrom (b : Nat) : Nat → List Nat
  | 0 => []
  | n + 1 => (b + 1) :: seqsFrom (b + 1) n

/-- Errors of the spec's fail-fast registry contract (spec section 7). -/
inductive RegistryError where
  | invalidArgument
deriving DecidableEq, Repr

/-- Follows the spec's words for claim C2: `register(id, metadata)` fails
with `InvalidArgument` if `id` is empty, and otherwise behaves as the
source's registration does.  Stated for comparison with
`registerAgentRunContext`, which has no error channel at all. -/
def registerFailFast (runId : String) (context : AgentRunContext) (now : Nat)
    (st : AgentEventsState) : Except RegistryError AgentEventsState :=
  if runId = "" then Except.error RegistryError.invalidArgument
  else Except.ok (registerAgentRunContext runId context now st)

/-- Follows the claim's words for C4: merging updates exactly the fields
PRESENT in the call, regardless of their value (so a present empty-string
`sessionKey` would overwrite).  Stated for comparison with the source's
`mergeContext`, which skips falsy present values. -/
def mergeContextClaimPresence (existing incoming : AgentRunContext) : AgentRunContext :=
  { sessionKey :=
      match incoming.sessionKey with
      | some s => some s
      | none => existing.sessionKey
    verboseLevel :=
      match incoming.verboseLevel with
      | some v => some v
      | none => existing.verboseLevel
    isHeartbeat :=
      match incoming.isHeartbeat with
      | some b => some b
      | none => existing.isHeartbeat }

theorem mapLookup_mapSet_self {α : Type} (m : List (String × α)) (k : String) (v : α) :
    mapLookup (mapSet m k v) k = some v := by
  induction m with
  | nil => simp [mapSet, mapLookup]
  | cons hd tl ih =>
      obtain ⟨k0, v0⟩ := hd
      by_cases h : k0 = k <;> simp [mapSet, mapLookup, h, ih]

theorem mapLookup_mapSet_ne {α : Type} (m : List (String × α)) (k k' : String) (v : α)
    (h : k' ≠ k) : mapLookup (mapSet m k v) k' = mapLookup m k' := by
  have hk : ¬k = k' := fun hh => h hh.symm
  induction m with
  | nil => simp [mapSet, mapLookup, hk]
  | cons hd tl ih =>
      obtain ⟨k0, v0⟩ := hd
      by_cases h0 : k0 = k
      · subst h0
        simp [mapSet, mapLookup, hk]
      · by_cases h1 : k0 = k' <;> simp [mapSet, mapLookup, h0, h1, hk, h, ih]

theorem mapLookup_eq_none_iff {α : Type} (m : List (String × α)) (k : String) :
    mapLookup m k = none ↔ k ∉ mapKeys m := by
  induction m with
  | nil => simp [mapLookup, mapKeys]
  | cons hd tl ih =>
      obtain ⟨k0, v0⟩ := hd
      by_cases h : k0 = k
      · subst h
        simp [mapLookup, mapKeys]
      · have hk : ¬k = k0 := fun hh => h hh.symm
        simp [mapLookup, mapKeys, h, hk, ih]

theorem mapHas_iff_mem {α : Type} (m : List (String × α)) (k : String) :
    mapHas m k = true ↔ k ∈ mapKeys m := by
  unfold mapHas
  rw [Option.isSome_iff_ne_none]
  constructor
  · intro h
    by_contra hmem
    exact h ((mapLookup_eq_none_iff m k).mpr hmem)
  · intro h hn
    exact ((mapLookup_eq_none_iff m k).mp hn) h

theorem mapKeys_mapSet_of_lookup_some {α : Type} (m : List (String × α)) (k : String)
    (v w : α) (h : mapLookup m k = some w) : mapKeys (mapSet m k v) = mapKeys m := by
  induction m with
  | nil => simp [mapLookup] at h
  | cons hd tl ih =>
      obtain ⟨k0, v0⟩ := hd
      by_cases h0 : k0 = k
      · simp [mapSet, mapKeys, h0]
      · simp [mapLookup, h0] at h
        have := ih h
        simp [mapKeys] at this
        simp [mapSet, mapKeys, h0, this]

theorem mapKeys_mapSet_of_lookup_none {α : Type} (m : List (String × α)) (k : String)
    (v : α) (h : mapLookup m k = none) : mapKeys (mapSet m k v) = mapKeys m ++ [k] := by
  induction m with
  | nil => simp [mapSet, mapKeys]
  | cons hd tl ih =>
      obtain ⟨k0, v0⟩ := hd
      by_cases h0 : k0 = k
      · simp [mapLookup, h0] at h
      · simp [mapLookup, h0] at h
        have := ih h
        simp [mapKeys] at this
        simp [mapSet, mapKeys, h0, this]

theorem mapDelete_keys {α : Type} (m : List (String × α)) (k : String) :
    mapKeys (mapDelete m k) = (mapKeys m).filter (fun x => x ≠ k) := by
  induction m with
  | nil => simp [mapDelete, mapKeys]
  | cons hd tl ih =>
      obtain ⟨k0, v0⟩ := hd
      have ih' := ih
      simp [mapKeys] at ih'
      by_cases h0 : k0 = k <;>
        simp [mapDelete, mapKeys, h0, ih', List.filter, ne_eq, decide_not]

theorem mapDelete_of_lookup_none {α : Type} (m : List (String × α)) (k : String)
    (h : mapLookup m k = none) : mapDelete m k = m := by
  induction m with
  | nil => simp [mapDelete]
  | cons hd tl ih =>
      obtain ⟨k0, v0⟩ := hd
      by_cases h0 : k0 = k
      · simp [mapLookup, h0] at h
      · simp [mapLookup, h0] at h
        simp [mapDelete, h0, ih h]

theorem mapLookup_mapDelete_self {α : Type} (m : List (String × α)) (k : String) :
    mapLookup (mapDelete m k) k = none := by
  induction m with
  | nil => simp [mapDelete, mapLookup]
  | cons hd tl ih =>
      obtain ⟨k0, v0⟩ := hd
      by_cases h0 : k0 = k <;> simp [mapDelete, mapLookup, h0, ih]

theorem length_mapKeys {α : Type} (m : List (String × α)) :
    (mapKeys m).length = m.length := by
  simp [mapKeys]

theorem notifyCompletions_length (cbs : List CompletionCallback) (st : AgentEventsState) :
    (notifyCompletions cbs st).2.length = cbs.length := by
  induction cbs generalizing st with
  | nil => simp [notifyCompletions]
  | cons cb rest ih => simp [notifyCompletions, ih]

theorem notifyListeners_eq_map (ls : List EventListener) (p : AgentEventPayload) :
    notifyListeners ls p = ls.map (fun l => l p) := by
  induction ls with
  | nil => simp [notifyListeners]
  | cons l rest ih => simp [notifyListeners, ih]

theorem register_of_lookup_none (id : String) (ctx : AgentRunContext) (now : Nat)
    (st : AgentEventsState) (h : id ≠ "") (hl : mapLookup st.runContextById id = none) :
    registerAgentRunContext id ctx now st =
      { st with
        runContextById := mapSet st.runContextById id ctx
        runStartTimes := mapSet st.runStartTimes id now
        pendingTimers := st.pendingTimers ++ [(id, now + MAX_RUN_DURATION_MS)]
        log := st.log ++ [LogEvent.runRegistered id] } := by
  unfold registerAgentRunContext
  simp [h, hl]

theorem register_of_lookup_some (id : String) (ctx existing : AgentRunContext) (now : Nat)
    (st : AgentEventsState) (h : id ≠ "") (hl : mapLookup st.runContextById id = some existing) :
    registerAgentRunContext id ctx now st =
      { st with runContextById := mapSet st.runContextById id (mergeContext existing ctx) } := by
  unfold registerAgentRunContext
  simp [h, hl]

theorem register_seqByRun (id : String) (ctx : AgentRunContext) (now : Nat)
    (st : AgentEventsState) :
    (registerAgentRunContext id ctx now st).seqByRun = st.seqByRun := by
  unfold registerAgentRunContext
  by_cases h : id = ""
  · simp [h]
  · cases hl : mapLookup st.runContextById id <;> simp [h, hl]

theorem clear_empty_cbs_runContextById (id : String) (st : AgentEventsState) :
    (clearAgentRunContext [] id st).1.runContextById = mapDelete st.runContextById id := by
  unfold clearAgentRunContext
  by_cases h : mapHas st.runContextById id <;> simp [h, notifyCompletions]

theorem clear_empty_cbs_seqByRun (id : String) (st : AgentEventsState) :
    (clearAgentRunContext [] id st).1.seqByRun = st.seqByRun := by
  unfold clearAgentRunContext
  by_cases h : mapHas st.runContextById id <;> simp [h, notifyCompletions]

theorem clear_empty_cbs_pendingTimers (id : String) (st : AgentEventsState) :
    (clearAgentRunContext [] id st).1.pendingTimers = st.pendingTimers := by
  unfold clearAgentRunContext
  by_cases h : mapHas st.runContextById id <;> simp [h, notifyCompletions]

theorem emit_runContextById (ls : List EventListener) (ev : AgentEventIn) (now : Nat)
    (st : AgentEventsState) :
    (emitAgentEvent ls ev now st).1.runContextById = st.runContextById := by
  simp [emitAgentEvent]

theorem emit_seqByRun (ls : List EventListener) (ev : AgentEventIn) (now : Nat)
    (st : AgentEventsState) :
    (emitAgentEvent ls ev now st).1.seqByRun
      = mapSet st.seqByRun ev.runId ((mapLookup st.seqByRun ev.runId).getD 0 + 1) := by
  simp [emitAgentEvent]

theorem emit_payload_seq (ls : List EventListener) (ev : AgentEventIn) (now : Nat)
    (st : AgentEventsState) :
    (emitAgentEvent ls ev now st).2.1.seq = (mapLookup st.seqByRun ev.runId).getD 0 + 1 := by
  simp [emitAgentEvent]

theorem emit_payload_runId (ls : List EventListener) (ev : AgentEventIn) (now : Nat)
    (st : AgentEventsState) :
    (emitAgentEvent ls ev now st).2.1.runId = ev.runId := by
  simp [emitAgentEvent]

theorem runTraceFrom_cons (st : AgentEventsState) (op : RegistryOp) (rest : List RegistryOp) :
    (runTraceFrom st (op :: rest)).1 = (runTraceFrom (stepOp st op).1 rest).1 := by
  simp [runTraceFrom]

theorem runTraceFrom_append (st : AgentEventsState) (tr tr' : List RegistryOp) :
    (runTraceFrom st (tr ++ tr')).1 = (runTraceFrom (runTraceFrom st tr).1 tr').1 := by
  induction tr generalizing st with
  | nil => simp [runTraceFrom]
  | cons op rest ih => simp [runTraceFrom, ih]

theorem keys_runTraceFrom (tr : List RegistryOp) :
    ∀ st : AgentEventsState, (mapKeys st.runContextById).Nodup →
      mapKeys (runTraceFrom st tr).1.runContextById
          = liveIdsListAfter (mapKeys st.runContextById) tr
        ∧ (liveIdsListAfter (mapKeys st.runContextById) tr).Nodup := by
  induction tr with
  | nil =>
      intro st h
      exact ⟨rfl, h⟩
  | cons op rest ih =>
      intro st h
      cases op with
      | register id ctx now =>
          rw [runTraceFrom_cons]
          by_cases hid : id = ""
          · have hst : (stepOp st (RegistryOp.register id ctx now)).1 = st := by
              simp [stepOp, registerAgentRunContext, hid]
            rw [hst]
            have hspec : liveIdsListAfter (mapKeys st.runContextById)
                (RegistryOp.register id ctx now :: rest)
                = liveIdsListAfter (mapKeys st.runContextById) rest := by
              simp [liveIdsListAfter, hid]
            rw [hspec]
            exact ih st h
          · cases hl : mapLookup st.runContextById id with
            | some existing =>
                have hmem : id ∈ mapKeys st.runContextById := by
                  by_contra hn
                  rw [(mapLookup_eq_none_iff _ _).mpr hn] at hl
                  exact Option.noConfusion hl
                have hkeys : mapKeys
                    (stepOp st (RegistryOp.register id ctx now)).1.runContextById
                    = mapKeys st.runContextById := by
                  show mapKeys (registerAgentRunContext id ctx now st).runContextById = _
                  rw [register_of_lookup_some id ctx existing now st hid hl]
                  exact mapKeys_mapSet_of_lookup_some _ _ _ existing hl
                have hspec : liveIdsListAfter (mapKeys st.runContextById)
                    (RegistryOp.register id ctx now :: rest)
                    = liveIdsListAfter (mapKeys st.runContextById) rest := by
                  simp [liveIdsListAfter, hmem]
                rw [hspec]
                have := ih (stepOp st (RegistryOp.register id ctx now)).1 (by rw [hkeys]; exact h)
                rw [hkeys] at this
                exact this
            | none =>
                have hmem : id ∉ mapKeys st.runContextById :=
                  (mapLookup_eq_none_iff _ _).mp hl
                have hkeys : mapKeys
                    (stepOp st (RegistryOp.register id ctx now)).1.runContextById
                    = mapKeys st.runContextById ++ [id] := by
                  show mapKeys (registerAgentRunContext id ctx now st).runContextById = _
                  rw [register_of_lookup_none id ctx now st hid hl]
                  exact mapKeys_mapSet_of_lookup_none _ _ _ hl
                have hnd : (mapKeys st.runContextById ++ [id]).Nodup := by
                  simp [List.nodup_append, h, hmem]
                have hspec : liveIdsListAfter (mapKeys st.runContextById)
                    (RegistryOp.register id ctx now :: rest)
                    = liveIdsListAfter (mapKeys st.runContextById ++ [id]) rest := by
                  simp [liveIdsListAfter, hid, hmem]
                rw [hspec]
                have := ih (stepOp st (RegistryOp.register id ctx now)).1 (by rw [hkeys]; exact hnd)
                rw [hkeys] at this
                exact this
      | clear id =>
          rw [runTraceFrom_cons]
          have hkeys : mapKeys (stepOp st (RegistryOp.clear id)).1.runContextById
              = (mapKeys st.runContextById).filter (fun x => x ≠ id) := by
            show mapKeys (clearAgentRunContext [] id st).1.runContextById = _
            rw [clear_empty_cbs_runContextById]
            exact mapDelete_keys _ _
          have hnd : ((mapKeys st.runContextById).filter (fun x => x ≠ id)).Nodup :=
            h.filter _
          have hspec : liveIdsListAfter (mapKeys st.runContextById)
              (RegistryOp.clear id :: rest)
              = liveIdsListAfter ((mapKeys st.runContextById).filter (fun x => x ≠ id)) rest := by
            simp [liveIdsListAfter]
          rw [hspec]
          have := ih (stepOp st (RegistryOp.clear id)).1 (by rw [hkeys]; exact hnd)
          rw [hkeys] at this
          exact this
      | emit ev now =>
          rw [runTraceFrom_cons]
          have hkeys : mapKeys (stepOp st (RegistryOp.emit ev now)).1.runContextById
              = mapKeys st.runContextById := by
            show mapKeys (emitAgentEvent [] ev now st).1.runContextById = _
            rw [emit_runContextById]
          have hspec : liveIdsListAfter (mapKeys st.runContextById)
              (RegistryOp.emit ev now :: rest)
              = liveIdsListAfter (mapKeys st.runContextById) rest := by
            simp [liveIdsListAfter]
          rw [hspec]
          have := ih (stepOp st (RegistryOp.emit ev now)).1 (by rw [hkeys]; exact h)
          rw [hkeys] at this
          exact this

theorem liveIdsAfter_toFinset (tr : List RegistryOp) :
    ∀ l : List String, liveIdsAfter l.toFinset tr = (liveIdsListAfter l tr).toFinset := by
  induction tr with
  | nil => intro l; rfl
  | cons op rest ih =>
      intro l
      cases op with
      | register id ctx now =>
          by_cases hid : id = ""
          · simpa [liveIdsAfter, liveIdsListAfter, hid] using ih l
          · by_cases hmem : id ∈ l
            · have hins : insert id l.toFinset = l.toFinset :=
                Finset.insert_eq_self.mpr (List.mem_toFinset.mpr hmem)
              have hspec : liveIdsAfter l.toFinset (RegistryOp.register id ctx now :: rest)
                  = liveIdsAfter l.toFinset rest := by
                simp [liveIdsAfter, hid, hins]
              rw [hspec]
              have hlist : liveIdsListAfter l (RegistryOp.register id ctx now :: rest)
                  = liveIdsListAfter l rest := by
                simp [liveIdsListAfter, hmem]
              rw [hlist]
              exact ih l
            · have hins : insert id l.toFinset = (l ++ [id]).toFinset := by
                ext x
                simp [or_comm]
              have hspec : liveIdsAfter l.toFinset (RegistryOp.register id ctx now :: rest)
                  = liveIdsAfter (l ++ [id]).toFinset rest := by
                simp [liveIdsAfter, hid, hins]
              rw [hspec]
              have hlist : liveIdsListAfter l (RegistryOp.register id ctx now :: rest)
                  = liveIdsListAfter (l ++ [id]) rest := by
                simp [liveIdsListAfter, hid, hmem]
              rw [hlist]
              exact ih (l ++ [id])
      | clear id =>
          have hers : l.toFinset.erase id = (l.filter (fun x => x ≠ id)).toFinset := by
            ext x
            simp [and_comm]
          have hspec : liveIdsAfter l.toFinset (RegistryOp.clear id :: rest)
              = liveIdsAfter (l.filter (fun x => x ≠ id)).toFinset rest := by
            simp [liveIdsAfter, hers]
          rw [hspec]
          exact ih _
      | emit ev now => simpa [liveIdsAfter, liveIdsListAfter] using ih l

theorem length_filter_ne_of_nodup (l : List String) (id : String) (h : l.Nodup) :
    (l.filter (fun x => x ≠ id)).length = if id ∈ l then l.length - 1 else l.length := by
  induction l with
  | nil => simp
  | cons a tl ih =>
      have ha : a ∉ tl := (List.nodup_cons.mp h).1
      have htl := (List.nodup_cons.mp h).2
      have ihtl := ih htl
      by_cases hai : a = id
      · subst hai
        have hfe : tl.filter (fun x => x ≠ a) = tl := by
          apply List.filter_eq_self.mpr
          intro x hx
          simp only [ne_eq, decide_eq_true_eq]
          intro hh
          exact ha (hh ▸ hx)
        rw [List.filter_cons_of_neg (by simp)]
        rw [hfe, if_pos (List.mem_cons_self a tl)]
        simp
      · rw [List.filter_cons_of_pos (by simp [hai])]
        by_cases hid : id ∈ tl
        · have hpos : 0 < tl.length := List.length_pos.mpr (List.ne_nil_of_mem hid)
          rw [if_pos hid] at ihtl
          rw [if_pos (List.mem_cons_of_mem a hid)]
          simp only [List.length_cons, ihtl]
          omega
        · rw [if_neg hid] at ihtl
          have hcond : id ∉ a :: tl := by
            intro hh
            rcases List.mem_cons.mp hh with h1 | h2
            · exact hai h1.symm
            · exact hid h2
          rw [if_neg hcond]
          simp only [List.length_cons, ihtl]

theorem keys_runTrace (tr : List RegistryOp) :
    mapKeys (runTrace tr).1.runContextById = liveIdsList tr ∧ (liveIdsList tr).Nodup := by
  have h := keys_runTraceFrom tr emptyAgentEventsState (by simp [emptyAgentEventsState, mapKeys])
  simpa [runTrace, liveIdsList, emptyAgentEventsState, mapKeys] using h

theorem liveIds_eq_toFinset (tr : List RegistryOp) :
    liveIds tr = (liveIdsList tr).toFinset := by
  have h := liveIdsAfter_toFinset tr []
  simpa [liveIds, liveIdsList] using h

theorem runTraceFrom_cons_snd (st : AgentEventsState) (op : RegistryOp)
    (rest : List RegistryOp) :
    (runTraceFrom st (op :: rest)).2
      = (stepOp st op).2 ++ (runTraceFrom (stepOp st op).1 rest).2 := by
  simp [runTraceFrom]

theorem seq_runTraceFrom (r : String) (tr : List RegistryOp) :
    ∀ st : AgentEventsState,
      ((runTraceFrom st tr).2.filter (fun p => p.runId = r)).map (fun p => p.seq)
          = seqsFrom ((mapLookup st.seqByRun r).getD 0) (countEmitsFor r tr)
        ∧ (mapLookup (runTraceFrom st tr).1.seqByRun r).getD 0
          = (mapLookup st.seqByRun r).getD 0 + countEmitsFor r tr := by
  induction tr with
  | nil => intro st; simp [runTraceFrom, countEmitsFor, seqsFrom]
  | cons op rest ih =>
      intro st
      cases op with
      | register id ctx now =>
          have hseq : (stepOp st (RegistryOp.register id ctx now)).1.seqByRun = st.seqByRun :=
            register_seqByRun id ctx now st
          have h := ih (stepOp st (RegistryOp.register id ctx now)).1
          rw [hseq] at h
          constructor
          · rw [runTraceFrom_cons_snd]
            have houts : (stepOp st (RegistryOp.register id ctx now)).2 = [] := rfl
            rw [houts]
            simpa [countEmitsFor] using h.1
          · rw [runTraceFrom_cons]
            simpa [countEmitsFor] using h.2
      | clear id =>
          have hseq : (stepOp st (RegistryOp.clear id)).1.seqByRun = st.seqByRun :=
            clear_empty_cbs_seqByRun id st
          have h := ih (stepOp st (RegistryOp.clear id)).1
          rw [hseq] at h
          constructor
          · rw [runTraceFrom_cons_snd]
            have houts : (stepOp st (RegistryOp.clear id)).2 = [] := rfl
            rw [houts]
            simpa [countEmitsFor] using h.1
          · rw [runTraceFrom_cons]
            simpa [countEmitsFor] using h.2
      | emit ev now =>
          have hpr : (stepOp st (RegistryOp.emit ev now)).2
              = [(emitAgentEvent [] ev now st).2.1] := rfl
          have hst1 : (stepOp st (RegistryOp.emit ev now)).1
              = (emitAgentEvent [] ev now st).1 := rfl
          have hseq := emit_seqByRun [] ev now st
          by_cases hr : ev.runId = r
          · subst hr
            have hbase : (mapLookup (emitAgentEvent [] ev now st).1.seqByRun ev.runId).getD 0
                = (mapLookup st.seqByRun ev.runId).getD 0 + 1 := by
              rw [hseq, mapLookup_mapSet_self]
              rfl
            have h := ih (stepOp st (RegistryOp.emit ev now)).1
            rw [hst1, hbase] at h
            constructor
            · rw [runTraceFrom_cons_snd, hpr, List.singleton_append]
              rw [List.filter_cons_of_pos (by simp [emit_payload_runId])]
              simp only [List.map_cons, emit_payload_seq]
              rw [hst1, h.1]
              have hc : countEmitsFor ev.runId (RegistryOp.emit ev now :: rest)
                  = countEmitsFor ev.runId rest + 1 := by
                simp [countEmitsFor, Nat.add_comm]
              rw [hc]
              simp [seqsFrom]
            · rw [runTraceFrom_cons, hst1, h.2]
              simp [countEmitsFor]
              omega
          · have hner : r ≠ ev.runId := fun hh => hr hh.symm
            have hbase : (mapLookup (emitAgentEvent [] ev now st).1.seqByRun r).getD 0
                = (mapLookup st.seqByRun r).getD 0 := by
              rw [hseq, mapLookup_mapSet_ne _ _ _ _ hner]
            have h := ih (stepOp st (RegistryOp.emit ev now)).1
            rw [hst1, hbase] at h
            constructor
            · rw [runTraceFrom_cons_snd, hpr, List.singleton_append]
              rw [List.filter_cons_of_neg (by simp [emit_payload_runId, hr])]
              rw [hst1, h.1]
              simp [countEmitsFor, hr]
            · rw [runTraceFrom_cons, hst1, h.2]
              simp [countEmitsFor, hr]

/-- A metadata record with every field absent. -/
def sampleCtx : AgentRunContext :=
  { sessionKey := none, verboseLevel := none, isHeartbeat := none }

/-- A concrete restart-required plan used by witnesses. -/
def samplePlan : ReloadPlan :=
  { classification := PlanClassification.restartRequired
    changedFields := ["gateway.port"]
    reason := "gateway.port changed" }

/-- C1 — Restart deferral: with exactly one active run, `evaluate` of a
restart-required plan moves the Coordinator to `PlanQueued` without
touching the Lifecycle Bridge; once the Registry count reaches zero the
completion callback moves it to `Applying` and sends exactly one restart
request carrying the queued plan's reason; and no call made while the
Registry is non-empty ever extends the Bridge request list. -/
theorem restart_deferral (c : Coordinator) (p q : ReloadPlan) (n : Nat) :
    (p.classification = PlanClassification.restartRequired →
        (c.evaluate p 1).state = CoordinatorState.planQueued p
        ∧ (c.evaluate p 1).bridgeRestartRequests = c.bridgeRestartRequests)
    ∧ (c.state = CoordinatorState.planQueued q →
        (c.onRunCompleted 0).state = CoordinatorState.applying
        ∧ (c.onRunCompleted 0).bridgeRestartRequests = c.bridgeRestartRequests ++ [q.reason])
    ∧ (0 < n → (c.evaluate p n).bridgeRestartRequests = c.bridgeRestartRequests)
    ∧ (0 < n → (c.onRunCompleted n).bridgeRestartRequests = c.bridgeRestartRequests)
    ∧ (p.classification = PlanClassification.restartRequired →
        ((c.evaluate p 1).onRunCompleted 0).state = CoordinatorState.applying
        ∧ ((c.evaluate p 1).onRunCompleted 0).bridgeRestartRequests
          = c.bridgeRestartRequests ++ [p.reason]) := by
  refine ⟨?_, ?_, ?_, ?_, ?_⟩
  · intro h
    constructor <;> simp [Coordinator.evaluate, h]
  · intro h
    constructor <;> simp [Coordinator.onRunCompleted, h]
  · intro hn
    cases hc : p.classification <;>
      simp [Coordinator.evaluate, hc, Nat.pos_iff_ne_zero.mp hn]
  · intro hn
    cases hs : c.state <;>
      simp [Coordinator.onRunCompleted, hs, Nat.pos_iff_ne_zero.mp hn]
  · intro h
    have h1 : (c.evaluate p 1).state = CoordinatorState.planQueued p := by
      simp [Coordinator.evaluate, h]
    have h2 : (c.evaluate p 1).bridgeRestartRequests = c.bridgeRestartRequests := by
      simp [Coordinator.evaluate, h]
    constructor <;> simp [Coordinator.onRunCompleted, h1, h2]

/-- Witness for C1: from the initial Coordinator, queueing the sample plan
with one active run leaves the Bridge silent, and the completion callback
at count zero sends exactly the plan's reason; with a positive count the
callback stays silent. -/
theorem restart_deferral_witness :
    (initialCoordinator.evaluate samplePlan 1).state = CoordinatorState.planQueued samplePlan
    ∧ (initialCoordinator.evaluate samplePlan 1).bridgeRestartRequests = []
    ∧ ((initialCoordinator.evaluate samplePlan 1).onRunCompleted 0).bridgeRestartRequests
        = ["gateway.port changed"]
    ∧ (initialCoordinator.evaluate samplePlan 2).bridgeRestartRequests = []
    ∧ ((initialCoordinator.evaluate samplePlan 1).onRunCompleted 1).bridgeRestartRequests
        = [] := by
  have h := restart_deferral initialCoordinator samplePlan samplePlan 1
  refine ⟨(h.1 rfl).1, ((h.1 rfl).2).trans rfl, ?_, ?_, ?_⟩
  · have hq := (restart_deferral (initialCoordinator.evaluate samplePlan 1)
      samplePlan samplePlan 2).2.1 ((h.1 rfl).1)
    exact hq.2.trans (by decide)
  · have h3 := (restart_deferral initialCoordinator samplePlan samplePlan 2).2.2.1 (by decide)
    exact h3.trans rfl
  · have h4 := (restart_deferral (initialCoordinator.evaluate samplePlan 1)
      samplePlan samplePlan 1).2.2.2.1 (by decide)
    exact (h4.trans ((h.1 rfl).2)).trans rfl

/-- C2 counterexample: the source's `registerAgentRunContext` with an empty
id completes normally and returns the state unchanged — it has no error
channel and surfaces nothing to the caller — whereas the claimed fail-fast
contract (`registerFailFast`, written from the spec's words) would return
`InvalidArgument` at the same input. -/
theorem register_empty_id_counterexample :
    registerAgentRunContext "" sampleCtx 0 emptyAgentEventsState = emptyAgentEventsState
    ∧ (registerAgentRunContext "" sampleCtx 0 emptyAgentEventsState).runContextById.length = 0
    ∧ registerFailFast "" sampleCtx 0 emptyAgentEventsState
        = Except.error RegistryError.invalidArgument := by
  refine ⟨by decide, by decide, ?_⟩
  simp [registerFailFast]

/-- C2 amended — Empty-id registration is a silent no-op: for every
metadata value and state, `registerAgentRunContext` with the empty id
returns the state unchanged (nothing inserted, `count()` unchanged) and
surfaces no error, because the function has no error channel. -/
theorem register_empty_id_silent_noop (ctx : AgentRunContext) (now : Nat)
    (st : AgentEventsState) :
    registerAgentRunContext "" ctx now st = st
    ∧ (registerAgentRunContext "" ctx now st).runContextById.length
        = st.runContextById.length := by
  constructor <;> simp [registerAgentRunContext]

/-- C9 — Subscriber exception isolation: the completion-callback and
listener loops invoke every subscriber exactly once in registration order
whatever exceptions earlier subscribers throw (each thrown exception is
captured in the outcome list, one outcome per subscriber), and
`clearAgentRunContext`/`emitAgentEvent` return normally, never propagating
a subscriber's exception. -/
theorem subscriber_exception_isolation (cbs : List CompletionCallback)
    (st : AgentEventsState) (id : String) (ls : List EventListener)
    (p : AgentEventPayload) (ev : AgentEventIn) (now : Nat) :
    (notifyCompletions cbs st).2.length = cbs.length
    ∧ notifyListeners ls p = ls.map (fun l => l p)
    ∧ (clearAgentRunContext cbs id st).2.length
        = (if mapHas st.runContextById id = true then cbs.length else 0)
    ∧ (emitAgentEvent ls ev now st).2.2
        = ls.map (fun l => l (emitAgentEvent ls ev now st).2.1) := by
  refine ⟨notifyCompletions_length cbs st, notifyListeners_eq_map ls p, ?_, ?_⟩
  · unfold clearAgentRunContext
    by_cases h : mapHas st.runContextById id
    · simp [h, notifyCompletions_length]
    · simp [h]
  · simp [emitAgentEvent, notifyListeners_eq_map]

/-- C10 — Session-key enrichment: the payload emitted by `emitAgentEvent`
carries the registered run context's session key (or `none` when no
context is registered) whenever the event's own key is absent or blank
after trimming, and keeps the event's own key unchanged when it is
non-blank. -/
theorem session_key_enrichment (ls : List EventListener) (ev : AgentEventIn)
    (now : Nat) (st : AgentEventsState) :
    (ev.sessionKey = none →
        (emitAgentEvent ls ev now st).2.1.sessionKey
          = (mapLookup st.runContextById ev.runId).bind (fun c => c.sessionKey))
    ∧ (∀ s, ev.sessionKey = some s → trimNonempty s = false →
        (emitAgentEvent ls ev now st).2.1.sessionKey
          = (mapLookup st.runContextById ev.runId).bind (fun c => c.sessionKey))
    ∧ (∀ s, ev.sessionKey = some s → trimNonempty s = true →
        (emitAgentEvent ls ev now st).2.1.sessionKey = some s) := by
  refine ⟨?_, ?_, ?_⟩
  · intro h
    simp [emitAgentEvent, enrichSessionKey, h]
  · intro s hs ht
    simp [emitAgentEvent, enrichSessionKey, hs, ht]
  · intro s hs ht
    simp [emitAgentEvent, enrichSessionKey, hs, ht]

/-- Witness for C10: with a context registered under `"r"` carrying session
key `"ck"`, an event with no own key and one with a blank own key are both
enriched to `"ck"`, while an event with key `"own"` keeps it. -/
theorem session_key_enrichment_witness :
    (emitAgentEvent [] { runId := "r", stream := "lifecycle", data := [], sessionKey := none }
        5 (registerAgentRunContext "r"
            { sessionKey := some "ck", verboseLevel := none, isHeartbeat := none }
            0 emptyAgentEventsState)).2.1.sessionKey = some "ck"
    ∧ (emitAgentEvent [] { runId := "r", stream := "tool", data := [], sessionKey := some " " }
        6 (registerAgentRunContext "r"
            { sessionKey := some "ck", verboseLevel := none, isHeartbeat := none }
            0 emptyAgentEventsState)).2.1.sessionKey = some "ck"
    ∧ (emitAgentEvent [] { runId := "r", stream := "tool", data := [], sessionKey := some "own" }
        7 (registerAgentRunContext "r"
            { sessionKey := some "ck", verboseLevel := none, isHeartbeat := none }
            0 emptyAgentEventsState)).2.1.sessionKey = some "own" := by
  refine ⟨?_, ?_, ?_⟩
  · have h := (session_key_enrichment []
      { runId := "r", stream := "lifecycle", data := [], sessionKey := none } 5
      (registerAgentRunContext "r"
        { sessionKey := some "ck", verboseLevel := none, isHeartbeat := none }
        0 emptyAgentEventsState)).1 rfl
    exact h.trans (by decide)
  · have h := (session_key_enrichment []
      { runId := "r", stream := "tool", data := [], sessionKey := some " " } 6
      (registerAgentRunContext "r"
        { sessionKey := some "ck", verboseLevel := none, isHeartbeat := none }
        0 emptyAgentEventsState)).2.1 " " rfl (by decide)
    exact h.trans (by decide)
  · exact (session_key_enrichment []
      { runId := "r", stream := "tool", data := [], sessionKey := some "own" } 7
      (registerAgentRunContext "r"
        { sessionKey := some "ck", verboseLevel := none, isHeartbeat := none }
        0 emptyAgentEventsState)).2.2 "own" rfl (by decide)

theorem liveIdsListAfter_append (tr tr' : List RegistryOp) :
    ∀ l : List String,
      liveIdsListAfter l (tr ++ tr') = liveIdsListAfter (liveIdsListAfter l tr) tr' := by
  induction tr with
  | nil => intro l; rfl
  | cons op rest ih =>
      intro l
      cases op with
      | register id ctx now =>
          simp only [List.cons_append, liveIdsListAfter]
          exact ih _
      | clear id =>
          simp only [List.cons_append, liveIdsListAfter]
          exact ih _
      | emit ev now =>
          simp only [List.cons_append, liveIdsListAfter]
          exact ih _

/-- C3 — Registry count invariant: after any finite sequence of calls from
the empty registry, `count()` (the size of `runContextById`) equals the
number of distinct currently registered ids (`liveIds`), an id is present
exactly when the call sequence leaves it registered, appending a `register`
increments the count only for a fresh non-empty id (re-registration never
increments), and appending a `clear` decrements only when the id is live
(clearing an absent id never decrements); the count is a `Nat`, hence never
negative. -/
theorem registry_count_invariant (tr : List RegistryOp) (id : String)
    (ctx : AgentRunContext) (now : Nat) :
    (runTrace tr).1.runContextById.length = (liveIds tr).card
    ∧ (mapHas (runTrace tr).1.runContextById id = true ↔ id ∈ liveIds tr)
    ∧ (runTrace (tr ++ [RegistryOp.register id ctx now])).1.runContextById.length
        = (if id = "" ∨ id ∈ liveIds tr then (runTrace tr).1.runContextById.length
           else (runTrace tr).1.runContextById.length + 1)
    ∧ (runTrace (tr ++ [RegistryOp.clear id])).1.runContextById.length
        = (if id ∈ liveIds tr then (runTrace tr).1.runContextById.length - 1
           else (runTrace tr).1.runContextById.length) := by
  obtain ⟨hkeys, hnd⟩ := keys_runTrace tr
  have hfin := liveIds_eq_toFinset tr
  have hlen : (runTrace tr).1.runContextById.length = (liveIdsList tr).length := by
    rw [← length_mapKeys, hkeys]
  have hcard : (liveIdsList tr).length = (liveIds tr).card := by
    rw [hfin, List.toFinset_card_of_nodup hnd]
  have hmemiff : ∀ x : String, x ∈ liveIds tr ↔ x ∈ liveIdsList tr := by
    intro x
    rw [hfin, List.mem_toFinset]
  refine ⟨hlen.trans hcard, ?_, ?_, ?_⟩
  · rw [mapHas_iff_mem, hkeys]
    exact (hmemiff id).symm
  · obtain ⟨hkeys2, _⟩ := keys_runTrace (tr ++ [RegistryOp.register id ctx now])
    have hlist2 : liveIdsList (tr ++ [RegistryOp.register id ctx now])
        = (if id = "" ∨ id ∈ liveIdsList tr then liveIdsList tr
           else liveIdsList tr ++ [id]) := by
      unfold liveIdsList
      rw [liveIdsListAfter_append]
      simp [liveIdsListAfter]
    have hlen2 : (runTrace (tr ++ [RegistryOp.register id ctx now])).1.runContextById.length
        = (liveIdsList (tr ++ [RegistryOp.register id ctx now])).length := by
      rw [← length_mapKeys, hkeys2]
    rw [hlen2, hlist2, hlen]
    by_cases hc1 : id = ""
    · simp [hc1]
    · by_cases hc2 : id ∈ liveIdsList tr
      · rw [if_pos (Or.inr hc2), if_pos (Or.inr ((hmemiff id).mpr hc2))]
      · have hc2' : id ∉ liveIds tr := fun hh => hc2 ((hmemiff id).mp hh)
        rw [if_neg (by simp [hc1, hc2]), if_neg (by simp [hc1, hc2'])]
        simp
  · obtain ⟨hkeys3, _⟩ := keys_runTrace (tr ++ [RegistryOp.clear id])
    have hlist3 : liveIdsList (tr ++ [RegistryOp.clear id])
        = (liveIdsList tr).filter (fun x => x ≠ id) := by
      unfold liveIdsList
      rw [liveIdsListAfter_append]
      simp [liveIdsListAfter]
    have hlen3 : (runTrace (tr ++ [RegistryOp.clear id])).1.runContextById.length
        = ((liveIdsList tr).filter (fun x => x ≠ id)).length := by
      rw [← length_mapKeys, hkeys3, hlist3]
    rw [hlen3, length_filter_ne_of_nodup _ _ hnd, hlen]
    by_cases hc : id ∈ liveIdsList tr
    · rw [if_pos hc, if_pos ((hmemiff id).mpr hc)]
    · rw [if_neg hc, if_neg (fun hh => hc ((hmemiff id).mp hh))]

/-- The concrete call sequence refuting the claimed `listIds` order:
register `"x"`, register `"y"`, clear `"x"`, re-register `"x"`. -/
def reRegisterTrace : List RegistryOp :=
  [RegistryOp.register "x" sampleCtx 0, RegistryOp.register "y" sampleCtx 0,
   RegistryOp.clear "x", RegistryOp.register "x" sampleCtx 0]

/-- C7 counterexample: after register x, register y, clear x, register x,
the code's `listIds` (JS `Map` insertion order, where a delete followed by
a set re-appends at the end) returns `["y", "x"]`, while ordering the live
ids by their FIRST non-merged registration, as the claim states, would
give `["x", "y"]`. -/
theorem listIds_first_order_counterexample :
    mapKeys (runTrace reRegisterTrace).1.runContextById = ["y", "x"]
    ∧ claimOrderedIds reRegisterTrace = ["x", "y"]
    ∧ mapKeys (runTrace reRegisterTrace).1.runContextById ≠ claimOrderedIds reRegisterTrace := by
  refine ⟨by decide, by decide, by decide⟩

/-- C7 amended — `listIds` returns exactly the live ids, ordered by the
non-merged registration that created each id's current record (so a clear
followed by a re-register moves the id to the end of the order), and a
merge re-registration of a live id never moves it. -/
theorem listIds_insertion_order (tr : List RegistryOp) (st : AgentEventsState)
    (id : String) (ctx : AgentRunContext) (now : Nat) :
    mapKeys (runTrace tr).1.runContextById = liveIdsList tr
    ∧ mapKeys (registerAgentRunContext id ctx now st).runContextById
        = (if mapHas st.runContextById id = true ∨ id = ""
           then mapKeys st.runContextById
           else mapKeys st.runContextById ++ [id]) := by
  refine ⟨(keys_runTrace tr).1, ?_⟩
  by_cases hid : id = ""
  · rw [if_pos (Or.inr hid)]
    simp [registerAgentRunContext, hid]
  · cases hl : mapLookup st.runContextById id with
    | some existing =>
        have hhas : mapHas st.runContextById id = true := by simp [mapHas, hl]
        rw [if_pos (Or.inl hhas)]
        rw [register_of_lookup_some id ctx existing now st hid hl]
        exact mapKeys_mapSet_of_lookup_some _ _ _ existing hl
    | none =>
        have hhas : mapHas st.runContextById id = false := by simp [mapHas, hl]
        rw [if_neg (by simp [hhas, hid])]
        rw [register_of_lookup_none id ctx now st hid hl]
        exact mapKeys_mapSet_of_lookup_none _ _ _ hl

/-- C8 — Per-run sequence monotonicity: over any call sequence from the
empty state, the payloads emitted for a run id carry the seq values
`1, 2, 3, ...` in order, one per `emitAgentEvent` call for that id (so
counters for distinct ids are independent), and `clearAgentRunContext`
leaves `seqByRun` untouched, so clearing a run never resets its counter. -/
theorem per_run_seq_monotonic (tr : List RegistryOp) (r : String)
    (st : AgentEventsState) (id : String) :
    ((runTrace tr).2.filter (fun p => p.runId = r)).map (fun p => p.seq)
        = seqsFrom 0 (countEmitsFor r tr)
    ∧ (mapLookup (runTrace tr).1.seqByRun r).getD 0 = countEmitsFor r tr
    ∧ (clearAgentRunContext [] id st).1.seqByRun = st.seqByRun := by
  have h := seq_runTraceFrom r tr emptyAgentEventsState
  have hbase : (mapLookup emptyAgentEventsState.seqByRun r).getD 0 = 0 := rfl
  rw [hbase] at h
  refine ⟨?_, ?_, clear_empty_cbs_seqByRun id st⟩
  · exact h.1
  · have h2 := h.2
    rw [Nat.zero_add] at h2
    exact h2

theorem mapHas_false_lookup_none {α : Type} (m : List (String × α)) (k : String)
    (h : mapHas m k = false) : mapLookup m k = none := by
  cases hx : mapLookup m k
  · rfl
  · simp [mapHas, hx] at h

/-- C4 counterexample: with `"x"` registered under session key `"a"`,
re-registering with a PRESENT but empty session key leaves the stored key
at `"a"` — the source skips falsy values — whereas the claimed
presence-based merge (`mergeContextClaimPresence`) would overwrite it with
the empty string. -/
theorem merge_presence_counterexample :
    mapLookup (registerAgentRunContext "x"
        { sessionKey := some "", verboseLevel := none, isHeartbeat := none } 1
        (registerAgentRunContext "x"
          { sessionKey := some "a", verboseLevel := none, isHeartbeat := none } 0
          emptyAgentEventsState)).runContextById "x"
      = some { sessionKey := some "a", verboseLevel := none, isHeartbeat := none }
    ∧ (mergeContextClaimPresence
        { sessionKey := some "a", verboseLevel := none, isHeartbeat := none }
        { sessionKey := some "", verboseLevel := none, isHeartbeat := none }).sessionKey
      = some ""
    ∧ (some "a" : Option String) ≠ (some "" : Option String) := by
  refine ⟨by decide, by decide, by decide⟩

/-- C4 amended — Re-registration merge: re-registering an existing id
stores exactly `mergeContext existing ctx`, changes neither the map size
nor the start times nor the pending timers, and the merge overwrites
`sessionKey`/`verboseLevel` only when present with a non-empty value
(leaving them unchanged when absent or empty) while `isHeartbeat` is
overwritten whenever present, including an explicit `false`. -/
theorem re_registration_merge (st : AgentEventsState) (id : String)
    (ctx existing : AgentRunContext) (now : Nat) (h : id ≠ "")
    (hl : mapLookup st.runContextById id = some existing) :
    mapLookup (registerAgentRunContext id ctx now st).runContextById id
        = some (mergeContext existing ctx)
    ∧ (registerAgentRunContext id ctx now st).runContextById.length
        = st.runContextById.length
    ∧ (registerAgentRunContext id ctx now st).pendingTimers = st.pendingTimers
    ∧ (registerAgentRunContext id ctx now st).runStartTimes = st.runStartTimes
    ∧ (∀ s, ctx.sessionKey = some s → s ≠ "" →
        (mergeContext existing ctx).sessionKey = some s)
    ∧ ((ctx.sessionKey = none ∨ ctx.sessionKey = some "") →
        (mergeContext existing ctx).sessionKey = existing.sessionKey)
    ∧ (∀ v, ctx.verboseLevel = some v → v ≠ "" →
        (mergeContext existing ctx).verboseLevel = some v)
    ∧ (ctx.verboseLevel = none →
        (mergeContext existing ctx).verboseLevel = existing.verboseLevel)
    ∧ (∀ b, ctx.isHeartbeat = some b → (mergeContext existing ctx).isHeartbeat = some b)
    ∧ (ctx.isHeartbeat = none →
        (mergeContext existing ctx).isHeartbeat = existing.isHeartbeat) := by
  have hreg := register_of_lookup_some id ctx existing now st h hl
  refine ⟨?_, ?_, ?_, ?_, ?_, ?_, ?_, ?_, ?_, ?_⟩
  · rw [hreg]
    exact mapLookup_mapSet_self _ _ _
  · rw [hreg]
    show (mapSet st.runContextById id (mergeContext existing ctx)).length = _
    rw [← length_mapKeys, mapKeys_mapSet_of_lookup_some _ _ _ existing hl, length_mapKeys]
  · rw [hreg]
  · rw [hreg]
  · intro s hs hne
    simp [mergeContext, truthyStr, hs, hne]
  · intro hcase
    rcases hcase with hn | he
    · simp [mergeContext, truthyStr, hn]
    · simp [mergeContext, truthyStr, he]
  · intro v hv hne
    simp [mergeContext, truthyStr, hv, hne]
  · intro hn
    simp [mergeContext, truthyStr, hn]
  · intro b hb
    simp [mergeContext, hb]
  · intro hn
    simp [mergeContext, hn]

/-- Witness for C4: re-registering `"x"` with non-empty session key `"b"`,
verbose level `"on"` and heartbeat `false` overwrites all three fields and
keeps the registry size at one. -/
theorem re_registration_merge_witness :
    mapLookup (registerAgentRunContext "x"
        { sessionKey := some "b", verboseLevel := some "on", isHeartbeat := some false } 3
        (registerAgentRunContext "x"
          { sessionKey := some "a", verboseLevel := none, isHeartbeat := some true } 0
          emptyAgentEventsState)).runContextById "x"
      = some { sessionKey := some "b", verboseLevel := some "on", isHeartbeat := some false }
    ∧ (registerAgentRunContext "x"
        { sessionKey := some "b", verboseLevel := some "on", isHeartbeat := some false } 3
        (registerAgentRunContext "x"
          { sessionKey := some "a", verboseLevel := none, isHeartbeat := some true } 0
          emptyAgentEventsState)).runContextById.length = 1 := by
  have h := re_registration_merge
    (registerAgentRunContext "x"
      { sessionKey := some "a", verboseLevel := none, isHeartbeat := some true } 0
      emptyAgentEventsState)
    "x" { sessionKey := some "b", verboseLevel := some "on", isHeartbeat := some false }
    { sessionKey := some "a", verboseLevel := none, isHeartbeat := some true } 3
    (by decide) (by decide)
  refine ⟨h.1.trans (by decide), ?_⟩
  rw [h.2.1]
  decide

/-- C5 counterexample: after registering `"x"` at time 0 and clearing it,
the stale-eviction timer scheduled for time 600000 is still pending —
`clearAgentRunContext` never cancels it — and when `"x"` is re-registered
at time 1, that leftover timer's body force-clears the fresh run even
though its age is below the maximum. -/
theorem clear_timer_counterexample :
    (clearAgentRunContext [] "x"
        (registerAgentRunContext "x" sampleCtx 0 emptyAgentEventsState)).1.pendingTimers
      = [("x", 600000)]
    ∧ (staleTimeoutBody [] "x"
        (registerAgentRunContext "x" sampleCtx 1
          (clearAgentRunContext [] "x"
            (registerAgentRunContext "x" sampleCtx 0
              emptyAgentEventsState)).1)).1.runContextById
      = [] := by
  refine ⟨by decide, by decide⟩

/-- C5 amended — `clear(id)` contract: if the id is registered, the record
and its start time are removed and every completion subscriber is then
notified synchronously, starting from the post-removal state (so a
subscriber querying the registry sees the record already gone); the
pending stale-eviction timer is NOT cancelled (the state handed to the
subscribers keeps `st.pendingTimers` unchanged).  If the id is not
registered, no subscriber is notified and the state is unchanged apart
from the unconditional delete on the start-time map, which is vacuous
whenever the two maps' keys agree, as every reachable state has them. -/
theorem clear_contract (cbs : List CompletionCallback) (id : String)
    (st : AgentEventsState) :
    (mapHas st.runContextById id = true →
        clearAgentRunContext cbs id st
          = notifyCompletions cbs
              { st with
                runContextById := mapDelete st.runContextById id
                runStartTimes := mapDelete st.runStartTimes id
                log := st.log ++ [LogEvent.runCleared id] }
        ∧ mapLookup (mapDelete st.runContextById id) id = none)
    ∧ (mapHas st.runContextById id = false →
        (clearAgentRunContext cbs id st).2 = []
        ∧ (clearAgentRunContext cbs id st).1
            = { st with runStartTimes := mapDelete st.runStartTimes id })
    ∧ (mapHas st.runContextById id = false → mapHas st.runStartTimes id = false →
        (clearAgentRunContext cbs id st).1 = st) := by
  refine ⟨?_, ?_, ?_⟩
  · intro h
    constructor
    · unfold clearAgentRunContext
      simp [h]
    · exact mapLookup_mapDelete_self _ _
  · intro h
    have hl := mapHas_false_lookup_none _ _ h
    have hdel := mapDelete_of_lookup_none st.runContextById id hl
    constructor
    · unfold clearAgentRunContext
      simp [h]
    · unfold clearAgentRunContext
      simp [h, hdel]
  · intro h h2
    have hl := mapHas_false_lookup_none _ _ h
    have hl2 := mapHas_false_lookup_none _ _ h2
    unfold clearAgentRunContext
    simp [h, mapDelete_of_lookup_none st.runContextById id hl,
      mapDelete_of_lookup_none st.runStartTimes id hl2]

/-- Witness for C5: clearing the registered id `"x"` notifies the single
(throwing) subscriber once; clearing the absent id `"q"` on the empty
state notifies nobody and leaves the state unchanged. -/
theorem clear_contract_witness :
    (clearAgentRunContext [fun s => (s, some "boom")] "x"
        (registerAgentRunContext "x" sampleCtx 0 emptyAgentEventsState)).2.length = 1
    ∧ (clearAgentRunContext [fun s => (s, some "boom")] "q" emptyAgentEventsState).2 = []
    ∧ (clearAgentRunContext [fun s => (s, some "boom")] "q" emptyAgentEventsState).1
        = emptyAgentEventsState := by
  refine ⟨?_, ?_, ?_⟩
  · have h := (clear_contract [fun s => (s, some "boom")] "x"
      (registerAgentRunContext "x" sampleCtx 0 emptyAgentEventsState)).1 (by decide)
    rw [h.1]
    rfl
  · exact ((clear_contract [fun s => (s, some "boom")] "q" emptyAgentEventsState).2.1
      (by decide)).1
  · exact (clear_contract [fun s => (s, some "boom")] "q" emptyAgentEventsState).2.2
      (by decide) (by decide)

/-- C6 — Stale eviction: registering a fresh non-empty id schedules a
per-run timer for `now + MAX_RUN_DURATION_MS` (600000 ms, the 10-minute
default); when that timer's body fires while the id is still registered,
it force-clears the run exactly as `clearAgentRunContext` would — record
removed, every completion subscriber fires — after logging the distinct
`staleRunEvicted` classification, all without any explicit clear call; if
the id is no longer registered when it fires, it does nothing. -/
theorem stale_eviction (st stp : AgentEventsState) (ctx : AgentRunContext)
    (id : String) (now : Nat) (cbs : List CompletionCallback) :
    (id ≠ "" → mapLookup st.runContextById id = none →
        (registerAgentRunContext id ctx now st).pendingTimers
          = st.pendingTimers ++ [(id, now + MAX_RUN_DURATION_MS)])
    ∧ MAX_RUN_DURATION_MS = 600000
    ∧ (mapHas stp.runContextById id = true →
        staleTimeoutBody cbs id stp
          = clearAgentRunContext cbs id
              { stp with log := stp.log ++ [LogEvent.staleRunEvicted id] })
    ∧ (mapHas stp.runContextById id = true →
        (staleTimeoutBody cbs id stp).2.length = cbs.length)
    ∧ (mapHas stp.runContextById id = false → staleTimeoutBody cbs id stp = (stp, [])) := by
  refine ⟨?_, by decide, ?_, ?_, ?_⟩
  · intro h hl
    rw [register_of_lookup_none id ctx now st h hl]
  · intro h
    unfold staleTimeoutBody
    simp [h]
  · intro h
    unfold staleTimeoutBody
    simp only [h, if_true]
    unfold clearAgentRunContext
    simp [h, notifyCompletions_length]
  · intro h
    unfold staleTimeoutBody
    simp [h]

/-- Witness for C6: registering `"r1"` at time 0 schedules the timer for
600000; firing the timeout body while `"r1"` is registered equals the
warn-then-clear path and notifies the single subscriber; firing it for the
unregistered `"zz"` does nothing. -/
theorem stale_eviction_witness :
    (registerAgentRunContext "r1" sampleCtx 0 emptyAgentEventsState).pendingTimers
      = [("r1", 600000)]
    ∧ (staleTimeoutBody [fun s => (s, some "boom")] "r1"
        (registerAgentRunContext "r1" sampleCtx 0 emptyAgentEventsState)).2.length = 1
    ∧ staleTimeoutBody [fun s => (s, some "boom")] "r1"
        (registerAgentRunContext "r1" sampleCtx 0 emptyAgentEventsState)
      = clearAgentRunContext [fun s => (s, some "boom")] "r1"
          { registerAgentRunContext "r1" sampleCtx 0 emptyAgentEventsState with
            log := (registerAgentRunContext "r1" sampleCtx 0 emptyAgentEventsState).log
              ++ [LogEvent.staleRunEvicted "r1"] }
    ∧ staleTimeoutBody [] "zz" (registerAgentRunContext "r1" sampleCtx 0 emptyAgentEventsState)
      = ((registerAgentRunContext "r1" sampleCtx 0 emptyAgentEventsState), []) := by
  refine ⟨?_, ?_, ?_, ?_⟩
  · have h := (stale_eviction emptyAgentEventsState emptyAgentEventsState sampleCtx
      "r1" 0 []).1 (by decide) (by decide)
    exact h.trans (by decide)
  · exact (stale_eviction emptyAgentEventsState
      (registerAgentRunContext "r1" sampleCtx 0 emptyAgentEventsState) sampleCtx
      "r1" 0 [fun s => (s, some "boom")]).2.2.2.1 (by decide)
  · exact (stale_eviction emptyAgentEventsState
      (registerAgentRunContext "r1" sampleCtx 0 emptyAgentEventsState) sampleCtx
      "r1" 0 [fun s => (s, some "boom")]).2.2.1 (by decide)
  · exact (stale_eviction emptyAgentEventsState
      (registerAgentRunContext "r1" sampleCtx 0 emptyAgentEventsState) sampleCtx
      "zz" 0 []).2.2.2.2 (by decide)
